/-
Verification of the fridge-app state/domain core.

Shallow embedding of the TypeScript sources:
  * `src/store/useFridgeStore.ts` — the state container (store) and its actions;
  * `src/types/fridge.ts` (concatenated at the end of `src/App.tsx`) — the
    domain registry, pure helpers and the localStorage persistence adapter.

Modelling conventions:
  * TypeScript string-union types whose values can come from unvalidated
    JSON at runtime (compartment type ids, food categories) are modelled as
    `String`, matching the erased runtime semantics.
  * A JavaScript object used as a string-keyed record (`Record<string, T>`)
    is modelled as an association list with JS-object update semantics
    (`recSet` replaces an existing key in place, otherwise appends).
  * `localStorage` is modelled as a total map `String → Option String`.
  * Timestamps are modelled as integer milliseconds since the Unix epoch;
    the host `Date` (proleptic Gregorian calendar, UTC host zone) is
    modelled by explicit civil-calendar conversions.
  * Numbers that the code treats as integers (quantities, coordinates,
    day counts) are modelled as `Int`.
-/
import Mathlib

namespace FridgeApp

/-! ## Domain model (`src/types/fridge.ts`) -/

/-- `FridgeStyle = 'retro' | 'modern' | 'cute'`. -/
inductive FridgeStyle where
  | retro | modern | cute
deriving DecidableEq, Repr

/-- `SetupStep = 'welcome' | 'template' | 'compartments' | 'style' | null`;
the `null` case is modelled as `Option.none` at use sites. -/
inductive SetupStep where
  | welcome | template | compartments | style
deriving DecidableEq, Repr

/-- Entry of the `COMPARTMENT_TYPES` registry. -/
structure CompartmentTypeInfo where
  name : String
  icon : String
  tempRange : String
  color : String
deriving DecidableEq, Repr

/-- The `COMPARTMENT_TYPES` record, as a lookup from the (runtime string)
type identifier; unknown identifiers yield `none`, matching the JS
record-indexing expression `COMPARTMENT_TYPES[typeId]?` being `undefined`. -/
def COMPARTMENT_TYPES (typeId : String) : Option CompartmentTypeInfo :=
  if typeId = "refrigerator" then some ⟨"冷藏室", "🥩", "2~8°C", "#E3F2FD"⟩
  else if typeId = "freezer" then some ⟨"冷凍室", "🧊", "-18~-24°C", "#E1F5FE"⟩
  else if typeId = "vegetable" then some ⟨"蔬果保鮮室", "🥬", "3~8°C", "#E8F5E9"⟩
  else if typeId = "quickFreeze" then some ⟨"急速冷凍室", "❄️", "-30~-40°C", "#B3E5FC"⟩
  else if typeId = "variableTemp" then some ⟨"變溫室", "🔄", "-18~8°C", "#FFF3E0"⟩
  else if typeId = "iceMaker" then some ⟨"製冰室", "🧊", "獨立製冰", "#E0F7FA"⟩
  else if typeId = "softFreeze" then some ⟨"微凍保鮮室", "🥩", "-3~-1°C", "#FCE4EC"⟩
  else if typeId = "vacuum" then some ⟨"真空冷藏室", "🫙", "約1°C", "#F3E5F5"⟩
  else if typeId = "chilled" then some ⟨"冰鮮室", "🐟", "-1~1°C", "#E8EAF6"⟩
  else none

/-- `CompartmentInstance { id, typeId }`. -/
structure CompartmentInstance where
  id : String
  typeId : String
deriving DecidableEq, Repr

/-- `FridgeConfig { name, compartments, style, color, photo? }`. -/
structure FridgeConfig where
  name : String
  compartments : List CompartmentInstance
  style : FridgeStyle
  color : String
  photo : Option String := none
deriving DecidableEq, Repr

/-- Entry of the `FOOD_CATEGORIES` table. -/
structure FoodCategoryInfo where
  id : String
  label : String
  color : String
  defaultExpiryDays : Int
deriving DecidableEq, Repr

/-- The `FOOD_CATEGORIES` table, in source order. -/
def FOOD_CATEGORIES : List FoodCategoryInfo :=
  [ ⟨"meat", "肉類", "#e74c3c", 3⟩,
    ⟨"seafood", "海鮮", "#3498db", 2⟩,
    ⟨"vegetable", "蔬菜", "#27ae60", 7⟩,
    ⟨"fruit", "水果", "#f39c12", 5⟩,
    ⟨"drink", "飲料", "#1abc9c", 30⟩,
    ⟨"dairy", "乳製品", "#ecf0f1", 7⟩,
    ⟨"leftover", "剩菜", "#9b59b6", 3⟩,
    ⟨"sauce", "醬料", "#e67e22", 60⟩,
    ⟨"other", "其他", "#95a5a6", 7⟩ ]

/-- `getCategoryInfo(id)`: `FOOD_CATEGORIES.find(c => c.id === id) ??
FOOD_CATEGORIES[FOOD_CATEGORIES.length - 1]`. -/
def getCategoryInfo (id : String) : FoodCategoryInfo :=
  match FOOD_CATEGORIES.find? (fun c => c.id = id) with
  | some c => c
  | none => FOOD_CATEGORIES.get ⟨FOOD_CATEGORIES.length - 1, by decide⟩

/-- `FoodItem`; `dateAdded` / `expiryDate` are the stored ISO strings, which
the store treats as opaque. -/
structure FoodItem where
  id : String
  name : String
  category : String
  quantity : Int
  compartment : String
  dateAdded : String
  expiryDate : String
deriving DecidableEq, Repr

/-- `Omit<FoodItem, 'id'>` — the argument of `addFood`. -/
structure FoodInput where
  name : String
  category : String
  quantity : Int
  compartment : String
  dateAdded : String
  expiryDate : String
deriving DecidableEq, Repr

/-- `Partial<Omit<FoodItem, 'id'>>` — the argument of `updateFood`; a field
that is `none` is absent from the JS partial object. -/
structure FoodUpdates where
  name : Option String := none
  category : Option String := none
  quantity : Option Int := none
  compartment : Option String := none
  dateAdded : Option String := none
  expiryDate : Option String := none
deriving DecidableEq, Repr

/-- JS object spread `{ ...f, ...updates }` for a food item and a partial
update: a field present in `updates` replaces the one of `f`. The `id`
field is not in `Partial<Omit<FoodItem,'id'>>`, so it is always kept. -/
def mergeFood (f : FoodItem) (u : FoodUpdates) : FoodItem :=
  { id := f.id
    name := u.name.getD f.name
    category := u.category.getD f.category
    quantity := u.quantity.getD f.quantity
    compartment := u.compartment.getD f.compartment
    dateAdded := u.dateAdded.getD f.dateAdded
    expiryDate := u.expiryDate.getD f.expiryDate }

/-! ## String-keyed records (JS object semantics) -/

/-- Lookup in a string-keyed record: value of the first entry with the key. -/
def recFind {α : Type} (m : List (String × α)) (k : String) : Option α :=
  (m.find? (fun p => p.1 = k)).map (·.2)

/-- JS object assignment `m[k] = v`: replaces the value of an existing key
in place (JS object keys are unique, so at most one entry carries the key),
otherwise appends the new key at the end. -/
def recSet {α : Type} : List (String × α) → String → α → List (String × α)
  | [], k, v => [(k, v)]
  | p :: rest, k, v =>
    if p.1 = k then (k, v) :: rest else p :: recSet rest k v

/-! ## The state container (`src/store/useFridgeStore.ts`) -/

/-- `addFoodModal: { open: boolean; compartment: string | null }`
(the source field `open` is a Lean keyword, hence `isOpen`). -/
structure AddFoodModalState where
  isOpen : Bool
  compartment : Option String
deriving DecidableEq, Repr

/-- `editFoodModal: { open: boolean; food: FoodItem | null }`. -/
structure EditFoodModalState where
  isOpen : Bool
  food : Option FoodItem
deriving DecidableEq, Repr

/-- `contextMenu: { open: boolean; food: FoodItem | null; x; y }`. -/
structure ContextMenuState where
  isOpen : Bool
  food : Option FoodItem
  x : Int
  y : Int
deriving DecidableEq, Repr

/-- `FridgeState` — the whole in-memory state tree. `openDoors` is the
`Record<string, boolean>` of door flags. -/
structure FridgeState where
  fridgeConfig : Option FridgeConfig
  setupStep : Option SetupStep
  openDoors : List (String × Bool)
  fridgeColor : String
  style : FridgeStyle
  sidebarOpen : Bool
  cameraView : Bool      -- `'default' | 'top'`: `false` = default, `true` = top
  foods : List FoodItem
  addFoodModal : AddFoodModalState
  editFoodModal : EditFoodModalState
  contextMenu : ContextMenuState
deriving DecidableEq, Repr

/-- Digit character of `Number.prototype.toString(36)`: `0-9` then `a-z`. -/
def base36Digit (n : Nat) : Char :=
  if n < 10 then Char.ofNat (48 + n) else Char.ofNat (87 + n)

/-- Digits of `n.toString(36)`, most significant first; the fuel only
bounds the recursion depth (`n + 1` always suffices since `n / 36 < n`
for `n ≥ 36`). -/
def natToBase36Aux : Nat → Nat → List Char
  | 0, _ => []
  | fuel + 1, n =>
    if n < 36 then [base36Digit n]
    else natToBase36Aux fuel (n / 36) ++ [base36Digit (n % 36)]

/-- `n.toString(36)` for a non-negative integer `n`. -/
def natToBase36 (n : Nat) : String :=
  String.mk (natToBase36Aux (n + 1) n)

/-- `generateId()` = `Date.now().toString(36) + Math.random().toString(36).slice(2, 8)`.
The two nondeterministic draws are passed in explicitly: `t` is the clock
reading in milliseconds, `r` the six-character slice of the random draw's
base-36 rendering. -/
def generateId (t : Nat) (r : String) : String :=
  natToBase36 t ++ r

/-- `{ ...food, id }` — build the stored item from an `addFood` payload. -/
def withId (food : FoodInput) (id : String) : FoodItem :=
  { id := id
    name := food.name
    category := food.category
    quantity := food.quantity
    compartment := food.compartment
    dateAdded := food.dateAdded
    expiryDate := food.expiryDate }

/-- `addFood(food)`: appends `{ ...food, id: generateId() }` to `foods`;
`t`, `r` are the clock / random draws consumed by `generateId`. -/
def addFood (s : FridgeState) (t : Nat) (r : String) (food : FoodInput) :
    FridgeState :=
  { s with foods := s.foods ++ [withId food (generateId t r)] }

/-- `updateFood(id, updates)`:
`foods.map(f => f.id === id ? { ...f, ...updates } : f)`. -/
def updateFood (s : FridgeState) (id : String) (u : FoodUpdates) : FridgeState :=
  { s with foods := s.foods.map (fun f => if f.id = id then mergeFood f u else f) }

/-- `deleteFood(id)`: `foods.filter(f => f.id !== id)`. -/
def deleteFood (s : FridgeState) (id : String) : FridgeState :=
  { s with foods := s.foods.filter (fun f => f.id ≠ id) }

/-- `toggleDoor(compartment)`: `openDoors[compartment] = !openDoors[compartment]`,
an absent key reading as `undefined`, i.e. falsy. -/
def toggleDoor (s : FridgeState) (compartment : String) : FridgeState :=
  { s with openDoors :=
      recSet s.openDoors compartment (!(recFind s.openDoors compartment).getD false) }

/-- `buildInitialOpenDoors(config)`: a fresh record with every compartment
id of the configuration set to `false` (empty for a `null` config). -/
def buildInitialOpenDoors (config : Option FridgeConfig) : List (String × Bool) :=
  match config with
  | none => []
  | some cfg => cfg.compartments.foldl (fun doors c => recSet doors c.id false) []

/-- `finishSetup(config)` — the state transition (its persistence write of
the configuration record is a storage effect, modelled separately from the
state). -/
def finishSetup (s : FridgeState) (config : FridgeConfig) : FridgeState :=
  { s with
    fridgeConfig := some config
    setupStep := none
    fridgeColor := config.color
    style := config.style
    openDoors := buildInitialOpenDoors (some config) }

/-- `enterSettings()`: `{ ...prev, setupStep: 'welcome' }`. -/
def enterSettings (s : FridgeState) : FridgeState :=
  { s with setupStep := some SetupStep.welcome }

/-- `resetFridge()` — the state transition: the fixed reset state,
independent of the previous state. -/
def resetFridge (_s : FridgeState) : FridgeState :=
  { fridgeConfig := none
    setupStep := some SetupStep.welcome
    openDoors := []
    fridgeColor := "#e8e8e8"
    style := FridgeStyle.modern
    sidebarOpen := false
    cameraView := false
    foods := []
    addFoodModal := { isOpen := false, compartment := none }
    editFoodModal := { isOpen := false, food := none }
    contextMenu := { isOpen := false, food := none, x := 0, y := 0 } }

/-- The `localStorage` key-value store. -/
def Storage : Type := String → Option String

/-- `localStorage.removeItem(key)`. -/
def removeItem (σ : Storage) (key : String) : Storage :=
  fun k => if k = key then none else σ k

/-- `resetFridge()` — the storage effect: `removeItem('fridge-app-foods')`
and `removeItem('fridgeConfig')`. -/
def resetFridgeStorage (σ : Storage) : Storage :=
  removeItem (removeItem σ "fridge-app-foods") "fridgeConfig"

/-! ## Pure domain helpers (`src/types/fridge.ts`) -/

/-- The recursion of `createCompartmentInstances(typeIds)`: walk the type
id list left to right carrying the `counts` record; each element bumps its
type's counter (`counts[typeId] = (counts[typeId] || 0) + 1`) and mints the
instance id by template `` `${typeId}-${counts[typeId]}` ``. -/
def createCompartmentInstancesAux
    (typeIds : List String) (counts : List (String × Nat)) :
    List CompartmentInstance :=
  match typeIds with
  | [] => []
  | t :: rest =>
    let c := ((recFind counts t).getD 0) + 1
    { id := t ++ "-" ++ toString c, typeId := t }
      :: createCompartmentInstancesAux rest (recSet counts t c)

/-- `createCompartmentInstances(typeIds)` with the fresh `counts = {}`. -/
def createCompartmentInstances (typeIds : List String) : List CompartmentInstance :=
  createCompartmentInstancesAux typeIds []

/-- JS regex `\d` — the characters `0-9`. -/
def isAsciiDigit (c : Char) : Bool :=
  48 ≤ c.toNat && c.toNat ≤ 57

/-- `instanceId.replace` of the end-anchored regex `-\d+$` by the empty
string: drop a trailing hyphen followed by
one or more digits; any other string is returned unchanged. The regex is
anchored at the end, so only the maximal trailing digit run (and the single
hyphen right before it) is removed. -/
def stripOrdinal (s : String) : String :=
  let rev := s.data.reverse
  let digits := rev.takeWhile isAsciiDigit
  let rest := rev.dropWhile isAsciiDigit
  if digits ≠ [] ∧ rest.head? = some '-' then
    String.mk rest.tail.reverse
  else s

/-- `getCompartmentLabel(instanceId, config?)`: with a configuration whose
compartments contain the instance id, the instance's type name (or the raw
id if the type is unknown); otherwise fall through to stripping the
trailing `-<digits>` ordinal and looking the remainder up as a type,
returning the raw id when that also fails. Total — never throws. -/
def getCompartmentLabel (instanceId : String) (config : Option FridgeConfig) :
    String :=
  let fallback :=
    match COMPARTMENT_TYPES (stripOrdinal instanceId) with
    | some info => info.name
    | none => instanceId
  match config with
  | some cfg =>
    match cfg.compartments.find? (fun c => c.id = instanceId) with
    | some inst =>
      match COMPARTMENT_TYPES inst.typeId with
      | some info => info.name
      | none => instanceId
    | none => fallback
  | none => fallback

/-! ## Host `Date` model (proleptic Gregorian calendar, UTC host zone)

`getDefaultExpiryDate` parses its ISO argument into a `Date`, calls
`d.setDate(d.getDate() + days)` and serializes back with `toISOString()`.
Timestamps are integer milliseconds since the epoch; the civil-calendar
conversions below model the host calendar (days ↔ year/month/day). -/

/-- Milliseconds per day. -/
def DAY_MS : Int := 86400000

/-- Civil `(year, month, day)` of a day count since 1970-01-01 (integer
division is floor division, the divisors being positive). -/
def civilFromDays (z0 : Int) : Int × Int × Int :=
  let z := z0 + 719468
  let era := z / 146097
  let doe := z - era * 146097
  let yoe := (doe - doe / 1460 + doe / 36524 - doe / 146096) / 365
  let y := yoe + era * 400
  let doy := doe - (365 * yoe + yoe / 4 - yoe / 100)
  let mp := (5 * doy + 2) / 153
  let d := doy - (153 * mp + 2) / 5 + 1
  let m := mp + (if mp < 10 then 3 else -9)
  (y + (if m ≤ 2 then 1 else 0), m, d)

/-- Day count since 1970-01-01 of a civil `(year, month, day)`; linear in
`d`, which is exactly how `Date.setDate` normalizes an out-of-range
day-of-month. -/
def daysFromCivil (y m d : Int) : Int :=
  let y' := if m ≤ 2 then y - 1 else y
  let era := y' / 400
  let yoe := y' - era * 400
  let doy := (153 * (m + (if 2 < m then -3 else 9)) + 2) / 5 + d - 1
  let doe := yoe * 365 + yoe / 4 - yoe / 100 + doy
  era * 146097 + doe - 719468

/-- `d.getDate()` — the day-of-month of a timestamp. -/
def dateGetDate (t : Int) : Int :=
  (civilFromDays (t / DAY_MS)).2.2

/-- `d.setDate(k)` — the timestamp with the day-of-month set to `k`
(normalized through the calendar), keeping the time of day. -/
def dateSetDate (t k : Int) : Int :=
  let day := t / DAY_MS
  let msOfDay := t % DAY_MS
  let c := civilFromDays day
  daysFromCivil c.1 c.2.1 k * DAY_MS + msOfDay

/-- `getDefaultExpiryDate(category, dateAdded)`:
`d.setDate(d.getDate() + getCategoryInfo(category).defaultExpiryDays)`. -/
def getDefaultExpiryDate (category : String) (dateAdded : Int) : Int :=
  let info := getCategoryInfo category
  dateSetDate dateAdded (dateGetDate dateAdded + info.defaultExpiryDays)

/-! ## Persistence adapter (`loadFoods`, `loadFridgeConfig`)

The load paths call `JSON.parse` inside a `try` block and fall back to the
empty default when the read yields nothing or the parse throws. `JSON.parse`
is modelled by `parseJson` below over an explicit JSON value type; a thrown
`SyntaxError` is the `none` result. Crucially, a successfully parsed value
is returned by the code unvalidated (the result is only *cast* to
`FoodItem[]` / `FridgeConfig`), so the model returns the parsed `Json`
value as-is. Number literals are modelled on integers. -/

/-- A parsed JSON value. -/
inductive Json where
  | null
  | bool (b : Bool)
  | num (n : Int)
  | str (s : String)
  | arr (elems : List Json)
  | obj (fields : List (String × Json))

/-- Skip JSON whitespace. -/
def skipWs : List Char → List Char
  | c :: cs => if c = ' ' ∨ c = '\t' ∨ c = '\n' ∨ c = '\r' then skipWs cs else c :: cs
  | [] => []

/-- Body of a JSON string literal (the opening quote already consumed);
returns the decoded characters and the remainder after the closing quote.
The common escapes are decoded; `\uXXXX` escapes are not modelled. -/
def parseStringChars : List Char → Option (List Char × List Char)
  | [] => none
  | '"' :: cs => some ([], cs)
  | '\\' :: c :: cs =>
    match (match c with
           | '"' => some '"'
           | '\\' => some '\\'
           | '/' => some '/'
           | 'n' => some '\n'
           | 't' => some '\t'
           | 'r' => some '\r'
           | 'b' => some (Char.ofNat 8)
           | 'f' => some (Char.ofNat 12)
           | _ => none) with
    | some e =>
      match parseStringChars cs with
      | some (rest, rem) => some (e :: rest, rem)
      | none => none
    | none => none
  | c :: cs =>
    match parseStringChars cs with
    | some (rest, rem) => some (c :: rest, rem)
    | none => none

/-- Value of a non-empty run of decimal digits. -/
def digitsToNat (ds : List Char) : Nat :=
  ds.foldl (fun a c => a * 10 + (c.toNat - 48)) 0

/-- A JSON integer literal: optional minus sign, one or more digits. -/
def parseIntNum (cs : List Char) : Option (Int × List Char) :=
  let core (cs : List Char) : Option (Nat × List Char) :=
    let ds := cs.takeWhile isAsciiDigit
    if ds = [] then none else some (digitsToNat ds, cs.dropWhile isAsciiDigit)
  match cs with
  | '-' :: rest =>
    match core rest with
    | some (n, rem) => some (-(n : Int), rem)
    | none => none
  | _ =>
    match core cs with
    | some (n, rem) => some ((n : Int), rem)
    | none => none

mutual

/-- One JSON value, fuel-bounded recursive descent. -/
def parseValue : Nat → List Char → Option (Json × List Char)
  | 0, _ => none
  | fuel + 1, cs =>
    match skipWs cs with
    | [] => none
    | 'n' :: 'u' :: 'l' :: 'l' :: rest => some (.null, rest)
    | 't' :: 'r' :: 'u' :: 'e' :: rest => some (.bool true, rest)
    | 'f' :: 'a' :: 'l' :: 's' :: 'e' :: rest => some (.bool false, rest)
    | '"' :: rest =>
      match parseStringChars rest with
      | some (s, rem) => some (.str (String.mk s), rem)
      | none => none
    | '[' :: rest =>
      match skipWs rest with
      | ']' :: rem => some (.arr [], rem)
      | other =>
        match parseElems fuel other with
        | some (vs, rem) => some (.arr vs, rem)
        | none => none
    | '{' :: rest =>
      match skipWs rest with
      | '}' :: rem => some (.obj [], rem)
      | other =>
        match parseFields fuel other with
        | some (fs, rem) => some (.obj fs, rem)
        | none => none
    | other =>
      match parseIntNum other with
      | some (n, rem) => some (.num n, rem)
      | none => none

/-- One or more comma-separated array elements, then `]`. -/
def parseElems : Nat → List Char → Option (List Json × List Char)
  | 0, _ => none
  | fuel + 1, cs =>
    match parseValue fuel cs with
    | some (v, rem) =>
      match skipWs rem with
      | ',' :: more =>
        match parseElems fuel more with
        | some (vs, rem2) => some (v :: vs, rem2)
        | none => none
      | ']' :: rem2 => some ([v], rem2)
      | _ => none
    | none => none

/-- One or more comma-separated `"key": value` pairs, then `}`. -/
def parseFields : Nat → List Char → Option (List (String × Json) × List Char)
  | 0, _ => none
  | fuel + 1, cs =>
    match skipWs cs with
    | '"' :: rest =>
      match parseStringChars rest with
      | some (k, rem) =>
        match skipWs rem with
        | ':' :: rem2 =>
          match parseValue fuel rem2 with
          | some (v, rem3) =>
            match skipWs rem3 with
            | ',' :: more =>
              match parseFields fuel more with
              | some (fs, rem4) => some ((String.mk k, v) :: fs, rem4)
              | none => none
            | '}' :: rem4 => some ([(String.mk k, v)], rem4)
            | _ => none
          | none => none
        | _ => none
      | none => none
    | _ => none

end

/-- `JSON.parse(s)`: parse one value and require only whitespace after it;
`none` models a thrown `SyntaxError`. -/
def parseJson (s : String) : Option Json :=
  match parseValue (s.length + 2) s.data with
  | some (v, rem) => if skipWs rem = [] then some v else none
  | none => none

/-- `loadFoods()`: `getItem('fridge-app-foods')`; a truthy raw value is
parsed and returned as-is (the code only casts it to `FoodItem[]`); a
missing or empty raw value, or a parse error, yields `[]`. -/
def loadFoods (σ : Storage) : Json :=
  match σ "fridge-app-foods" with
  | some raw =>
    if raw ≠ "" then
      match parseJson raw with
      | some v => v
      | none => Json.arr []
    else Json.arr []
  | none => Json.arr []

/-- `loadFridgeConfig()`: `getItem('fridgeConfig')`; a truthy raw value is
parsed and returned as-is (cast to `FridgeConfig`); a missing or empty raw
value, or a parse error, yields `null`. -/
def loadFridgeConfig (σ : Storage) : Option Json :=
  match σ "fridgeConfig" with
  | some raw =>
    if raw ≠ "" then
      match parseJson raw with
      | some v => some v
      | none => none
    else none
  | none => none

/-! ## Concrete sample values (used by witnesses and counterexamples) -/

/-- A sequence of `addFood` dispatches, each with its clock / random draw. -/
def runAddFoods (s : FridgeState) (calls : List (Nat × String × FoodInput)) :
    FridgeState :=
  calls.foldl (fun st c => addFood st c.1 c.2.1 c.2.2) s

/-- The fresh-start state (the literal that `resetFridge` also produces). -/
def sampleState : FridgeState :=
  { fridgeConfig := none
    setupStep := some SetupStep.welcome
    openDoors := []
    fridgeColor := "#e8e8e8"
    style := FridgeStyle.modern
    sidebarOpen := false
    cameraView := false
    foods := []
    addFoodModal := { isOpen := false, compartment := none }
    editFoodModal := { isOpen := false, food := none }
    contextMenu := { isOpen := false, food := none, x := 0, y := 0 } }

/-- A two-compartment configuration (the spec's two-door template). -/
def sampleConfig : FridgeConfig :=
  { name := "廚房冰箱"
    compartments := [⟨"refrigerator-1", "refrigerator"⟩, ⟨"freezer-1", "freezer"⟩]
    style := FridgeStyle.modern
    color := "#ffffff" }

/-- A sample stored food item. -/
def sampleFood : FoodItem :=
  { id := "a1"
    name := "milk"
    category := "dairy"
    quantity := 2
    compartment := "refrigerator-1"
    dateAdded := "2024-01-01T00:00:00.000Z"
    expiryDate := "2024-01-08T00:00:00.000Z" }

/-- A sample `addFood` payload. -/
def sampleInput : FoodInput :=
  { name := "milk"
    category := "dairy"
    quantity := 2
    compartment := "refrigerator-1"
    dateAdded := "2024-01-01T00:00:00.000Z"
    expiryDate := "2024-01-08T00:00:00.000Z" }

/-- A state holding exactly the sample food. -/
def oneItemState : FridgeState :=
  { sampleState with foods := [sampleFood] }

/-- Two `addFood` dispatches that observe the same millisecond and the same
random draw. -/
def dupCalls : List (Nat × String × FoodInput) :=
  [(0, "aaaaaa", sampleInput), (0, "aaaaaa", sampleInput)]

/-- A storage whose two persisted records hold the JSON text `5`: valid
JSON, but neither an array nor an object. -/
def corruptStorage : Storage :=
  fun k => if k = "fridge-app-foods" ∨ k = "fridgeConfig" then some "5" else none

/-! ## Record lemmas -/

/-- Lookup in the empty record. -/
theorem recFind_nil {α : Type} (k : String) :
    recFind ([] : List (String × α)) k = none := rfl

/-- Lookup steps over one entry. -/
theorem recFind_cons {α : Type} (p : String × α) (l : List (String × α))
    (k : String) :
    recFind (p :: l) k = if p.1 = k then some p.2 else recFind l k := by
  simp only [recFind]
  by_cases h : p.1 = k
  · rw [List.find?_cons_of_pos _ (by simpa using h)]
    simp [h]
  · rw [List.find?_cons_of_neg _ (by simpa using h)]
    simp [h]

/-- Lookup after assignment: the assigned key reads the new value, any
other key is unaffected. -/
theorem recFind_recSet {α : Type} (m : List (String × α)) (k k' : String) (v : α) :
    recFind (recSet m k v) k' = if k' = k then some v else recFind m k' := by
  induction m with
  | nil =>
    simp only [recSet, recFind_cons, recFind_nil]
    by_cases h : k' = k
    · simp [h]
    · have h2 : ¬ (k = k') := fun e => h e.symm
      simp [h, h2]
  | cons p rest ih =>
    by_cases hp : p.1 = k
    · simp only [recSet, if_pos hp, recFind_cons]
      by_cases h : k' = k
      · simp [h]
      · have h2 : ¬ (k = k') := fun e => h e.symm
        have hpk : ¬ (p.1 = k') := fun e => h2 (hp.symm.trans e)
        simp [h, h2, hpk]
    · simp only [recSet, if_neg hp, recFind_cons, ih]
      by_cases h : k' = k
      · have hpk : ¬ (p.1 = k') := fun e => hp (e.trans h)
        simp [h, hpk, hp]
      · by_cases hpk : p.1 = k' <;> simp [h, hpk]

/-- Door map built by folding `recSet` over compartments: every id of a
processed compartment reads `false`, anything else falls back to the
initial map. -/
theorem recFind_foldl_doors (cs : List CompartmentInstance)
    (m : List (String × Bool)) (k : String) :
    recFind (cs.foldl (fun d c => recSet d c.id false) m) k =
      if k ∈ cs.map (·.id) then some false else recFind m k := by
  induction cs generalizing m with
  | nil => simp
  | cons c cs ih =>
    simp only [List.foldl_cons, ih, recFind_recSet, List.map_cons, List.mem_cons]
    by_cases h1 : k ∈ cs.map (·.id) <;> by_cases h2 : k = c.id <;> simp [h1, h2]

/-- `buildInitialOpenDoors` holds exactly the configuration's compartment
identifiers, each mapped to `false`. -/
theorem recFind_buildInitialOpenDoors (cfg : FridgeConfig) (k : String) :
    recFind (buildInitialOpenDoors (some cfg)) k =
      if k ∈ cfg.compartments.map (·.id) then some false else none := by
  show recFind (cfg.compartments.foldl (fun d c => recSet d c.id false) []) k = _
  rw [recFind_foldl_doors, recFind_nil]

/-! ## Claims -/

/-- C3: from any state, `resetFridge` yields no configuration, empty
inventory, setup step `welcome`, an empty door-flag map, sidebar closed,
no overlays open, default camera view, the neutral-gray default color
`#e8e8e8`, the `modern` style, and both persisted records removed. -/
theorem resetFridge_resets_everything (s : FridgeState) (σ : Storage) :
    (resetFridge s).fridgeConfig = none
    ∧ (resetFridge s).foods = []
    ∧ (resetFridge s).setupStep = some SetupStep.welcome
    ∧ (resetFridge s).openDoors = []
    ∧ (resetFridge s).sidebarOpen = false
    ∧ (resetFridge s).addFoodModal = { isOpen := false, compartment := none }
    ∧ (resetFridge s).editFoodModal = { isOpen := false, food := none }
    ∧ (resetFridge s).contextMenu = { isOpen := false, food := none, x := 0, y := 0 }
    ∧ (resetFridge s).cameraView = false
    ∧ (resetFridge s).fridgeColor = "#e8e8e8"
    ∧ (resetFridge s).style = FridgeStyle.modern
    ∧ resetFridgeStorage σ "fridgeConfig" = none
    ∧ resetFridgeStorage σ "fridge-app-foods" = none := by
  refine ⟨rfl, rfl, rfl, rfl, rfl, rfl, rfl, rfl, rfl, rfl, rfl, ?_, ?_⟩ <;>
    simp [resetFridgeStorage, removeItem]

/-- C10: `enterSettings` changes only the setup step (to `welcome`); the
configuration, inventory, door map, color, style, sidebar flag, camera
view and all three overlay sub-states are untouched. -/
theorem enterSettings_frame (s : FridgeState) :
    (enterSettings s).setupStep = some SetupStep.welcome
    ∧ (enterSettings s).fridgeConfig = s.fridgeConfig
    ∧ (enterSettings s).foods = s.foods
    ∧ (enterSettings s).openDoors = s.openDoors
    ∧ (enterSettings s).fridgeColor = s.fridgeColor
    ∧ (enterSettings s).style = s.style
    ∧ (enterSettings s).sidebarOpen = s.sidebarOpen
    ∧ (enterSettings s).cameraView = s.cameraView
    ∧ (enterSettings s).addFoodModal = s.addFoodModal
    ∧ (enterSettings s).editFoodModal = s.editFoodModal
    ∧ (enterSettings s).contextMenu = s.contextMenu :=
  ⟨rfl, rfl, rfl, rfl, rfl, rfl, rfl, rfl, rfl, rfl, rfl⟩

/-- C4: for a configuration with a non-empty compartment list,
`finishSetup` re-initializes the door map to exactly the configuration's
compartment identifiers, all closed (stale keys discarded), and adopts the
configuration's style and color; a subsequent `toggleDoor` on the first
compartment's id opens exactly that door. -/
theorem finishSetup_reinitializes_doors (s : FridgeState) (cfg : FridgeConfig)
    (h : cfg.compartments ≠ []) :
    (∀ k, recFind (finishSetup s cfg).openDoors k =
        if k ∈ cfg.compartments.map (·.id) then some false else none)
    ∧ (finishSetup s cfg).style = cfg.style
    ∧ (finishSetup s cfg).fridgeColor = cfg.color
    ∧ recFind (toggleDoor (finishSetup s cfg)
          (cfg.compartments.head h).id).openDoors
        (cfg.compartments.head h).id = some true
    ∧ (∀ k, k ≠ (cfg.compartments.head h).id →
        (recFind (toggleDoor (finishSetup s cfg)
            (cfg.compartments.head h).id).openDoors k).getD false = false) := by
  have hdoors : (finishSetup s cfg).openDoors = buildInitialOpenDoors (some cfg) := rfl
  have hmem : (cfg.compartments.head h).id ∈ cfg.compartments.map (·.id) :=
    List.mem_map_of_mem _ (List.head_mem h)
  have hfirst : recFind (finishSetup s cfg).openDoors (cfg.compartments.head h).id
      = some false := by
    rw [hdoors, recFind_buildInitialOpenDoors, if_pos hmem]
  refine ⟨?_, rfl, rfl, ?_, ?_⟩
  · intro k
    rw [hdoors, recFind_buildInitialOpenDoors]
  · show recFind (recSet (finishSetup s cfg).openDoors _
        (!(recFind (finishSetup s cfg).openDoors _).getD false)) _ = some true
    rw [recFind_recSet, if_pos rfl, hfirst]
    rfl
  · intro k hk
    show (recFind (recSet (finishSetup s cfg).openDoors _
        (!(recFind (finishSetup s cfg).openDoors _).getD false)) k).getD false = false
    rw [recFind_recSet, if_neg hk, hdoors, recFind_buildInitialOpenDoors]
    by_cases hkm : k ∈ cfg.compartments.map (·.id) <;> simp [hkm]

/-- Closed instance of C4: on the sample two-compartment configuration,
toggling the first compartment (`refrigerator-1`) right after
`finishSetup` reads that door open and the other (`freezer-1`) closed. -/
theorem finishSetup_reinitializes_doors_witness :
    sampleConfig.compartments ≠ []
    ∧ recFind (toggleDoor (finishSetup sampleState sampleConfig)
          (sampleConfig.compartments.head (by decide)).id).openDoors
        (sampleConfig.compartments.head (by decide)).id = some true
    ∧ (recFind (toggleDoor (finishSetup sampleState sampleConfig)
          (sampleConfig.compartments.head (by decide)).id).openDoors
        "freezer-1").getD false = false := by
  have h := finishSetup_reinitializes_doors sampleState sampleConfig (by decide)
  exact ⟨by decide, h.2.2.2.1, h.2.2.2.2 "freezer-1" (by decide)⟩

/-- C5: `updateFood` preserves the length of the inventory, replaces each
entry whose identifier matches by the merge of its fields with the given
partial fields (keeping the identifier and the position), leaves every
other entry unchanged, and is a complete no-op when no identifier
matches. -/
theorem updateFood_merge_semantics (s : FridgeState) (id : String) (u : FoodUpdates) :
    ((updateFood s id u).foods.length = s.foods.length)
    ∧ (∀ i (h : i < s.foods.length) (h2 : i < (updateFood s id u).foods.length),
        (updateFood s id u).foods.get ⟨i, h2⟩ =
          if (s.foods.get ⟨i, h⟩).id = id then mergeFood (s.foods.get ⟨i, h⟩) u
          else s.foods.get ⟨i, h⟩)
    ∧ (∀ f : FoodItem, (mergeFood f u).id = f.id)
    ∧ ((∀ f ∈ s.foods, f.id ≠ id) → updateFood s id u = s) := by
  refine ⟨by simp [updateFood], ?_, fun f => rfl, ?_⟩
  · intro i h h2
    simp [updateFood]
  · intro hnone
    cases s with
    | mk cfg step doors color style side cam foods afm efm cm =>
      simp only [updateFood]
      congr 1
      conv_rhs => rw [← List.map_id foods]
      exact List.map_congr_left fun f hf => by simp [hnone f hf]

/-- Closed instance of C5: updating a missing identifier on the one-item
state is a complete no-op. -/
theorem updateFood_merge_semantics_witness :
    updateFood oneItemState "zz" { name := some "cheese" } = oneItemState :=
  (updateFood_merge_semantics oneItemState "zz" { name := some "cheese" }).2.2.2
    (by decide)

/-- C1 fails on the code: the store does not clamp quantity. Updating the
sample item with `quantity: 0` stores quantity `0`, and `addFood` with a
payload of quantity `0` stores quantity `0` — both below 1. -/
theorem store_quantity_not_clamped_counterexample :
    ((updateFood oneItemState "a1" { quantity := some 0 }).foods.map (·.quantity) = [0])
    ∧ ¬ (∀ f ∈ (updateFood oneItemState "a1" { quantity := some 0 }).foods,
          1 ≤ f.quantity)
    ∧ ((addFood sampleState 0 "aaaaaa"
          { sampleInput with quantity := 0 }).foods.map (·.quantity) = [0])
    ∧ ¬ (∀ f ∈ (addFood sampleState 0 "aaaaaa"
          { sampleInput with quantity := 0 }).foods, 1 ≤ f.quantity) := by
  refine ⟨by decide, ?_, by decide, ?_⟩ <;> decide

/-- C1 amended: the container stores quantities verbatim. An update whose
partial fields carry `quantity = q` stores exactly `q` in every matching
entry (even for `q ≤ 0`), and `addFood` appends an item holding exactly
the payload's quantity; any clamping happens in the UI layer before
dispatch. -/
theorem store_stores_quantity_verbatim (s : FridgeState) (id : String)
    (u : FoodUpdates) (q : Int) (hq : u.quantity = some q)
    (t : Nat) (r : String) (input : FoodInput) :
    (∀ i (h : i < s.foods.length) (h2 : i < (updateFood s id u).foods.length),
        ((updateFood s id u).foods.get ⟨i, h2⟩).quantity =
          if (s.foods.get ⟨i, h⟩).id = id then q
          else (s.foods.get ⟨i, h⟩).quantity)
    ∧ (addFood s t r input).foods.getLast? = some (withId input (generateId t r))
    ∧ (withId input (generateId t r)).quantity = input.quantity := by
  refine ⟨?_, ?_, rfl⟩
  · intro i h h2
    simp only [updateFood]
    rw [List.get_eq_getElem, List.getElem_map]
    by_cases hid : s.foods[i].id = id <;> simp [hid, mergeFood, hq]
  · show (s.foods ++ [withId input (generateId t r)]).getLast? = _
    exact List.getLast?_concat _

/-- Closed instance of the amended C1: `quantity: 0` on the matching item
reads back `0`, and `addFood` of a zero-quantity payload stores `0`. -/
theorem store_stores_quantity_verbatim_witness :
    ((updateFood oneItemState "a1" { quantity := some 0 }).foods.get
        ⟨0, by decide⟩).quantity = 0
    ∧ (addFood sampleState 0 "aaaaaa" { sampleInput with quantity := 0 }
        ).foods.getLast? =
      some (withId { sampleInput with quantity := 0 } (generateId 0 "aaaaaa")) := by
  have h := store_stores_quantity_verbatim oneItemState "a1"
    { quantity := some 0 } 0 rfl 0 "aaaaaa" { sampleInput with quantity := 0 }
  have h2 := store_stores_quantity_verbatim sampleState "a1"
    { quantity := some 0 } 0 rfl 0 "aaaaaa" { sampleInput with quantity := 0 }
  refine ⟨?_, h2.2.1⟩
  rw [h.1 0 (by decide) (by decide)]
  decide

/-- C2 fails on the code: two `addFood` calls that observe the same
millisecond and the same random draw mint the same identifier, so the
resulting inventory's identifiers are not pairwise distinct; nothing in
the store prevents or detects the collision. -/
theorem addFood_id_collision_counterexample :
    (runAddFoods sampleState dupCalls).foods.map (·.id) = ["0aaaaaa", "0aaaaaa"]
    ∧ ¬ ((runAddFoods sampleState dupCalls).foods.map (·.id)).Nodup := by
  refine ⟨by decide, by decide⟩

/-- C2 amended: starting from an empty inventory, a sequence of `addFood`
calls appends one item per call whose identifier is exactly the minted
time-plus-random string; the identifiers are pairwise distinct whenever
the minted strings of the sequence are pairwise distinct (the code offers
no guarantee beyond that). -/
theorem addFood_ids_are_the_minted_ids (s : FridgeState)
    (calls : List (Nat × String × FoodInput)) (hs : s.foods = [])
    (hd : (calls.map (fun c => generateId c.1 c.2.1)).Nodup) :
    ((runAddFoods s calls).foods.map (·.id)
        = calls.map (fun c => generateId c.1 c.2.1))
    ∧ ((runAddFoods s calls).foods.map (·.id)).Nodup := by
  have hfoods : ∀ (calls : List (Nat × String × FoodInput)) (s : FridgeState),
      (runAddFoods s calls).foods =
        s.foods ++ calls.map (fun c => withId c.2.2 (generateId c.1 c.2.1)) := by
    intro calls
    induction calls with
    | nil => intro s; simp [runAddFoods]
    | cons c cs ih =>
      intro s
      show (runAddFoods (addFood s c.1 c.2.1 c.2.2) cs).foods = _
      rw [ih]
      simp [addFood]
  have hids : (runAddFoods s calls).foods.map (·.id)
      = calls.map (fun c => generateId c.1 c.2.1) := by
    rw [hfoods, hs, List.nil_append, List.map_map]
    rfl
  exact ⟨hids, hids ▸ hd⟩

/-- Closed instance of the amended C2: two calls with distinct clock
readings mint the distinct identifiers `0aaaaaa` and `1aaaaaa`. -/
theorem addFood_ids_are_the_minted_ids_witness :
    ((runAddFoods sampleState
        [(0, "aaaaaa", sampleInput), (1, "aaaaaa", sampleInput)]).foods.map
      (·.id)).Nodup :=
  (addFood_ids_are_the_minted_ids sampleState
    [(0, "aaaaaa", sampleInput), (1, "aaaaaa", sampleInput)]
    rfl (by decide)).2

/-- `createCompartmentInstancesAux` returns one instance per input type id. -/
theorem createCompartmentInstancesAux_length (ts : List String)
    (counts : List (String × Nat)) :
    (createCompartmentInstancesAux ts counts).length = ts.length := by
  induction ts generalizing counts with
  | nil => rfl
  | cons t rest ih => simp [createCompartmentInstancesAux, ih]

/-- Positional characterization of `createCompartmentInstancesAux`: with a
counts record agreeing with the multiset of already-processed type ids
`pre`, position `i` holds the `i`-th input type id with ordinal equal to
the number of its occurrences in `pre` plus those among the first `i + 1`
inputs. -/
theorem createCompartmentInstancesAux_get (ts : List String)
    (counts : List (String × Nat)) (pre : List String)
    (hinv : ∀ t, (recFind counts t).getD 0 = pre.count t)
    (i : Nat) (h : i < ts.length)
    (h2 : i < (createCompartmentInstancesAux ts counts).length) :
    (createCompartmentInstancesAux ts counts).get ⟨i, h2⟩ =
      { id := ts.get ⟨i, h⟩ ++ "-" ++
          toString (pre.count (ts.get ⟨i, h⟩)
            + (ts.take (i + 1)).count (ts.get ⟨i, h⟩)),
        typeId := ts.get ⟨i, h⟩ } := by
  induction ts generalizing counts pre i with
  | nil => exact absurd h (by simp)
  | cons t rest ih =>
    cases i with
    | zero =>
      have hstep : (createCompartmentInstancesAux (t :: rest) counts).get ⟨0, h2⟩ =
          { id := t ++ "-" ++ toString ((recFind counts t).getD 0 + 1),
            typeId := t } := rfl
      rw [hstep, hinv t]
      have htake : ((t :: rest).take 1).count t = 1 := by
        simp [List.count_cons]
      show _ = ({ id := t ++ "-" ++
                    toString (pre.count t + ((t :: rest).take 1).count t),
                  typeId := t } : CompartmentInstance)
      rw [htake]
    | succ j =>
      have hlen : j < rest.length := by
        simpa using Nat.lt_of_succ_lt_succ (by simpa using h)
      have h2' : j < (createCompartmentInstancesAux rest
          (recSet counts t ((recFind counts t).getD 0 + 1))).length := by
        rw [createCompartmentInstancesAux_length]
        exact hlen
      have hstep : (createCompartmentInstancesAux (t :: rest) counts).get ⟨j + 1, h2⟩ =
          (createCompartmentInstancesAux rest
            (recSet counts t ((recFind counts t).getD 0 + 1))).get ⟨j, h2'⟩ := rfl
      have hinv' : ∀ t', (recFind (recSet counts t ((recFind counts t).getD 0 + 1))
          t').getD 0 = (pre ++ [t]).count t' := by
        intro t'
        rw [recFind_recSet]
        by_cases ht : t' = t
        · subst ht
          simp [hinv t', List.count_append]
        · simp [ht, hinv t', List.count_append, List.count_cons,
            (show ¬ (t = t') from fun e => ht e.symm)]
      rw [hstep, ih _ (pre ++ [t]) hinv' j hlen h2']
      have hget : (t :: rest).get ⟨j + 1, h⟩ = rest.get ⟨j, hlen⟩ := rfl
      have htake : (t :: rest).take (j + 1 + 1) = t :: rest.take (j + 1) := rfl
      rw [hget, htake]
      have hcount : (pre ++ [t]).count (rest.get ⟨j, hlen⟩)
            + (rest.take (j + 1)).count (rest.get ⟨j, hlen⟩)
          = pre.count (rest.get ⟨j, hlen⟩)
            + (t :: rest.take (j + 1)).count (rest.get ⟨j, hlen⟩) := by
        simp only [List.count_append, List.count_cons, List.count_nil]
        omega
      rw [hcount]

/-- C6: `createCompartmentInstances` keeps the input order (position `i`
holds the `i`-th type id), assigns each element a 1-based ordinal counted
independently per type (its occurrence count among the first `i + 1`
inputs) and joins type id and ordinal with a hyphen; in particular the
list `refrigerator, freezer, refrigerator` yields the identifiers
`refrigerator-1`, `freezer-1`, `refrigerator-2`. -/
theorem createCompartmentInstances_per_type_ordinals (typeIds : List String) :
    ((createCompartmentInstances typeIds).length = typeIds.length)
    ∧ (∀ i (h : i < typeIds.length)
          (h2 : i < (createCompartmentInstances typeIds).length),
        (createCompartmentInstances typeIds).get ⟨i, h2⟩ =
          { id := typeIds.get ⟨i, h⟩ ++ "-" ++
              toString ((typeIds.take (i + 1)).count (typeIds.get ⟨i, h⟩)),
            typeId := typeIds.get ⟨i, h⟩ })
    ∧ createCompartmentInstances ["refrigerator", "freezer", "refrigerator"] =
        [⟨"refrigerator-1", "refrigerator"⟩, ⟨"freezer-1", "freezer"⟩,
         ⟨"refrigerator-2", "refrigerator"⟩] := by
  refine ⟨createCompartmentInstancesAux_length typeIds [], ?_, by decide⟩
  intro i h h2
  have := createCompartmentInstancesAux_get typeIds [] [] (fun t => rfl) i h h2
  simpa using this

/-- Closed instance of C6: the second element of the scenario's output is
`freezer-1` at position 1. -/
theorem createCompartmentInstances_per_type_ordinals_witness :
    (createCompartmentInstances ["refrigerator", "freezer", "refrigerator"]).get
        ⟨1, by decide⟩ =
      { id := "freezer-1", typeId := "freezer" } := by
  rw [(createCompartmentInstances_per_type_ordinals
    ["refrigerator", "freezer", "refrigerator"]).2.1 1 (by decide) (by decide)]
  decide

/-- C9: `getCompartmentLabel` is total and resolves in three stages — a
configuration entry with the given instance id yields its type's display
name; otherwise the trailing `-<digits>` ordinal is stripped and the
remainder looked up as a type; if that also fails the raw identifier is
returned; in particular `getCompartmentLabel "freezer-3" none` resolves
the `freezer` type's display name. -/
theorem getCompartmentLabel_three_stages :
    (getCompartmentLabel "freezer-3" none = "冷凍室")
    ∧ (∀ id cfg inst info,
        cfg.compartments.find? (fun c => c.id = id) = some inst →
        COMPARTMENT_TYPES inst.typeId = some info →
        getCompartmentLabel id (some cfg) = info.name)
    ∧ (∀ id cfg,
        cfg.compartments.find? (fun c => c.id = id) = none →
        getCompartmentLabel id (some cfg) = getCompartmentLabel id none)
    ∧ (∀ id, getCompartmentLabel id none =
        match COMPARTMENT_TYPES (stripOrdinal id) with
        | some info => info.name
        | none => id) := by
  refine ⟨by decide, ?_, ?_, fun id => rfl⟩
  · intro id cfg inst info hfind htype
    simp [getCompartmentLabel, hfind, htype]
  · intro id cfg hfind
    simp [getCompartmentLabel, hfind]

/-- Closed instance of C9 stage 1: the sample configuration resolves
`refrigerator-1` to the refrigerator type's display name. -/
theorem getCompartmentLabel_three_stages_witness :
    getCompartmentLabel "refrigerator-1" (some sampleConfig) = "冷藏室" :=
  (getCompartmentLabel_three_stages).2.1 "refrigerator-1" sampleConfig
    ⟨"refrigerator-1", "refrigerator"⟩ ⟨"冷藏室", "🥩", "2~8°C", "#E3F2FD"⟩
    (by decide) (by decide)

/-- C7 fails as stated: a stored raw value of `5` is valid JSON, so the
parse succeeds and the value is returned unvalidated — `loadFoods` yields
the number `5` (not a list) and `loadFridgeConfig` yields `5` (neither a
configuration object nor the absent value). -/
theorem load_fail_soft_counterexample :
    parseJson "5" = some (Json.num 5)
    ∧ loadFoods corruptStorage = Json.num 5
    ∧ (∀ xs, loadFoods corruptStorage ≠ Json.arr xs)
    ∧ loadFridgeConfig corruptStorage = some (Json.num 5)
    ∧ (∀ fields, loadFridgeConfig corruptStorage ≠ some (Json.obj fields)) := by
  refine ⟨rfl, rfl, ?_, rfl, ?_⟩
  · intro xs hx
    have h : Json.num 5 = Json.arr xs := hx
    exact Json.noConfusion h
  · intro fields hf
    have h : some (Json.num 5) = some (Json.obj fields) := hf
    exact Json.noConfusion (Option.some.inj h)

/-- C7 amended: the load paths never throw; a missing record, or a raw
value that fails to parse, yields the empty default (`[]` / `null`) — but
a raw value that parses successfully is returned as-is, without shape
validation. -/
theorem load_functions_fail_soft (σ : Storage) :
    (σ "fridge-app-foods" = none → loadFoods σ = Json.arr [])
    ∧ (σ "fridgeConfig" = none → loadFridgeConfig σ = none)
    ∧ (∀ raw, σ "fridge-app-foods" = some raw → parseJson raw = none →
        loadFoods σ = Json.arr [])
    ∧ (∀ raw, σ "fridgeConfig" = some raw → parseJson raw = none →
        loadFridgeConfig σ = none)
    ∧ (∀ raw v, σ "fridge-app-foods" = some raw → raw ≠ "" →
        parseJson raw = some v → loadFoods σ = v)
    ∧ (∀ raw v, σ "fridgeConfig" = some raw → raw ≠ "" →
        parseJson raw = some v → loadFridgeConfig σ = some v) := by
  refine ⟨?_, ?_, ?_, ?_, ?_, ?_⟩
  · intro h
    simp [loadFoods, h]
  · intro h
    simp [loadFridgeConfig, h]
  · intro raw h hp
    by_cases he : raw = "" <;> simp [loadFoods, h, he, hp]
  · intro raw h hp
    by_cases he : raw = "" <;> simp [loadFridgeConfig, h, he, hp]
  · intro raw v h he hp
    simp [loadFoods, h, he, hp]
  · intro raw v h he hp
    simp [loadFridgeConfig, h, he, hp]

/-- Closed instance of the amended C7: with nothing stored, the loads
yield the empty list and the absent value. -/
theorem load_functions_fail_soft_witness :
    loadFoods (fun _k => none) = Json.arr []
    ∧ loadFridgeConfig (fun _k => none) = none :=
  ⟨(load_functions_fail_soft (fun _k => none)).1 rfl,
   (load_functions_fail_soft (fun _k => none)).2.1 rfl⟩

/-- `daysFromCivil` is linear in the day-of-month — an out-of-range
day-of-month normalizes through the calendar, which is how `setDate`
carries month and year boundaries. -/
theorem daysFromCivil_add (y m d n : Int) :
    daysFromCivil y m (d + n) = daysFromCivil y m d + n := by
  simp only [daysFromCivil]
  split <;> split <;> omega

/-- The day-of-year computed by `civilFromDays` lies in `[0, 365]`. -/
theorem civil_doy_bounds (doe yoe : Int) (h0 : 0 ≤ doe) (h1 : doe ≤ 146096)
    (hyoe : yoe = (doe - doe / 1460 + doe / 36524 - doe / 146096) / 365) :
    0 ≤ doe - (365 * yoe + yoe / 4 - yoe / 100) ∧
      doe - (365 * yoe + yoe / 4 - yoe / 100) ≤ 365 := by
  have hfc : yoe / 4 ≤ doe / 1460 := by omega
  have hcf : doe / 1460 ≤ yoe / 4 + 1 := by omega
  have he : doe / 146096 = 0 ∨ doe / 146096 = 1 := by omega
  have hg1 : yoe / 100 ≤ doe / 36524 - doe / 146096 := by
    rcases he with he | he <;> omega
  have hg2 : doe / 36524 - doe / 146096 ≤ yoe / 100 := by omega
  omega

/-- Core of the conversion round trip, on the named intermediate values of
`civilFromDays`. -/
theorem daysFromCivil_civilFromDays_aux
    (zp era doe yoe doy mp y m d : Int)
    (hera : era = zp / 146097)
    (hdoe : doe = zp - era * 146097)
    (hyoe : yoe = (doe - doe / 1460 + doe / 36524 - doe / 146096) / 365)
    (hdoy : doy = doe - (365 * yoe + yoe / 4 - yoe / 100))
    (hmp : mp = (5 * doy + 2) / 153)
    (hm : m = mp + (if mp < 10 then 3 else -9))
    (hd : d = doy - (153 * mp + 2) / 5 + 1)
    (hy : y = yoe + era * 400 + (if m ≤ 2 then 1 else 0)) :
    daysFromCivil y m d = zp - 719468 := by
  have hb_doe : 0 ≤ doe ∧ doe ≤ 146096 := by omega
  have hb_yoe : 0 ≤ yoe ∧ yoe ≤ 399 := by
    clear hdoy hmp hm hd hy
    omega
  have hb_doy : 0 ≤ doy ∧ doy ≤ 365 := by
    have := civil_doy_bounds doe yoe hb_doe.1 hb_doe.2 hyoe
    omega
  have hb_mp : 0 ≤ mp ∧ mp ≤ 11 := by
    clear hera hdoe hyoe hdoy hm hd hy
    omega
  simp only [daysFromCivil]
  rcases lt_or_le mp 10 with h10 | h10
  · rw [if_pos h10] at hm
    have hm2 : ¬ (m ≤ 2) := by omega
    have hm2' : 2 < m := by omega
    rw [if_neg hm2] at hy
    rw [if_neg hm2, if_pos hm2']
    have hy400 : y / 400 = era := by
      clear hdoe hyoe hdoy hmp hm hd
      omega
    rw [hy400]
    have hyoe2 : y - era * 400 = yoe := by omega
    rw [hyoe2]
    have hmp2 : m + -3 = mp := by omega
    rw [hmp2]
    clear hera hyoe hmp hm hy h10 hm2 hm2' hy400 hyoe2 hmp2 hb_doe hb_yoe hb_doy
      hb_mp
    omega
  · rw [if_neg (by omega : ¬ mp < 10)] at hm
    have hm2 : m ≤ 2 := by omega
    have hm2' : ¬ (2 < m) := by omega
    rw [if_pos hm2] at hy
    rw [if_pos hm2, if_neg hm2']
    have hy400 : (y - 1) / 400 = era := by
      clear hdoe hyoe hdoy hmp hm hd
      omega
    rw [hy400]
    have hyoe2 : y - 1 - era * 400 = yoe := by omega
    rw [hyoe2]
    have hmp2 : m + 9 = mp := by omega
    rw [hmp2]
    clear hera hyoe hmp hm hy h10 hm2 hm2' hy400 hyoe2 hmp2 hb_doe hb_yoe hb_doy
      hb_mp
    omega

/-- Converting a day count to a civil date and back is the identity: the
host calendar model is coherent, so `setDate(getDate() + n)` lands exactly
`n` calendar days later. -/
theorem daysFromCivil_civilFromDays (z : Int) :
    daysFromCivil (civilFromDays z).1 (civilFromDays z).2.1 (civilFromDays z).2.2
      = z := by
  have h := daysFromCivil_civilFromDays_aux (z + 719468) _ _ _ _ _ _ _ _
    rfl rfl rfl rfl rfl rfl rfl rfl
  have hz : z + 719468 - 719468 = z := by omega
  rw [hz] at h
  exact h

/-- C8: `getDefaultExpiryDate` returns `dateAdded` plus the category's
default-expiry-days, computed through the civil calendar
(`setDate(getDate() + days)`); in the UTC host model this lands exactly
`days × 86400000` ms later, and in particular category `meat` (3 days)
from `2024-01-01T00:00:00Z` (`1704067200000` ms) yields
`2024-01-04T00:00:00Z` (`1704326400000` ms). -/
theorem getDefaultExpiryDate_adds_default_days (category : String) (t : Int) :
    getDefaultExpiryDate category t
      = t + (getCategoryInfo category).defaultExpiryDays * DAY_MS
    ∧ (getCategoryInfo "meat").defaultExpiryDays = 3
    ∧ getDefaultExpiryDate "meat" 1704067200000 = 1704326400000 := by
  refine ⟨?_, by decide, by decide⟩
  show dateSetDate t (dateGetDate t + (getCategoryInfo category).defaultExpiryDays)
    = _
  simp only [dateSetDate, dateGetDate]
  rw [daysFromCivil_add, daysFromCivil_civilFromDays]
  simp only [DAY_MS]
  omega

end FridgeApp
